import Mathlib

/-!
# Verification of the LSP get-diagnostics tool and related components

Shallow embedding of `src/lsp/tools/lspGetDiagnostics.ts` (the
`getDiagnosticsWithLSP` function and the data it manipulates), of the
document-symbols variant dispatch of the document-symbols tool
(`handleGetDocumentSymbols`), and of the spec's Document Synchronizer
(whose implementation, `lspClient.ts`, is not part of the sources at
hand and is therefore modelled from the spec).

The embedding represents the tool's interaction with the external LSP
client object by an oracle (`ClientOracle`): the results the client
calls would return, indexed by call site (and, for the poll loop, by
poll attempt).  The tool itself is embedded as a pure function from the
request and the oracle to the returned `Result` together with the trace
of client calls it performs, mirroring the TypeScript control flow
statement by statement.
-/

/-! ## Data model (from `lspGetDiagnostics.ts`) -/

/-- A 0-based LSP position (`{ line: number; character: number }`). -/
structure LSPPosition where
  line : Nat
  character : Nat
deriving DecidableEq, Repr

/-- An LSP range (`{ start: ...; end: ... }`); `end` is a Lean keyword, so the
field is called `endPos`. -/
structure LSPRange where
  start : LSPPosition
  endPos : LSPPosition
deriving DecidableEq, Repr

/-- Tool-facing severity names, the values of `SEVERITY_MAP` and of the
`severity` field of the tool-facing `Diagnostic`. -/
inductive Severity where
  | error
  | warning
  | information
  | hint
deriving DecidableEq, Repr

/-- A diagnostic code is `string | number` in the source. -/
inductive DiagCode where
  | str (s : String)
  | num (n : Int)
deriving DecidableEq, Repr

/-- The raw LSP diagnostic shape (`interface LSPDiagnostic`): `severity`,
`code` and `source` are optional. -/
structure LSPDiagnostic where
  range : LSPRange
  severity : Option Int
  code : Option DiagCode
  source : Option String
  message : String
deriving DecidableEq, Repr

/-- The tool-facing diagnostic shape (`interface Diagnostic`), with 1-based
positions. -/
structure Diagnostic where
  severity : Severity
  line : Nat
  column : Nat
  endLine : Nat
  endColumn : Nat
  message : String
  source : Option String
  code : Option DiagCode
deriving DecidableEq, Repr

/-- `SEVERITY_MAP`: the partial map `{1: "error", 2: "warning",
3: "information", 4: "hint"}`; indexing it at any other number yields
`undefined` (here `none`). -/
def SEVERITY_MAP (n : Int) : Option Severity :=
  if n = 1 then some .error
  else if n = 2 then some .warning
  else if n = 3 then some .information
  else if n = 4 then some .hint
  else none

/-- The per-diagnostic conversion performed by `lspDiagnostics.map((diag) => ...)`:
`SEVERITY_MAP[diag.severity ?? 1] ?? "error"` for the severity, and `+ 1` on
every position coordinate (LSP 0-based to tool-facing 1-based). -/
def convertDiagnostic (diag : LSPDiagnostic) : Diagnostic :=
  { severity := (SEVERITY_MAP (diag.severity.getD 1)).getD .error
    line := diag.range.start.line + 1
    column := diag.range.start.character + 1
    endLine := diag.range.endPos.line + 1
    endColumn := diag.range.endPos.character + 1
    message := diag.message
    source := diag.source
    code := diag.code }

/-- `fileContent.split('\n').length`: JavaScript's `split` produces one part
per newline character plus one, so the number the source computes is the
number of `'\n'` characters in the content plus one. -/
def lineCount (fileContent : String) : Nat :=
  (fileContent.data.filter (· = '\n')).length + 1

/-- `const isLargeFile = lineCount > 100`. -/
def isLargeFile (fileContent : String) : Bool :=
  lineCount fileContent > 100

/-- The four waiting bounds the tool derives from the content:
`eventTimeout`, `initialWait`, `maxPolls`, `minPollsForNoError`. -/
structure WaitParams where
  eventTimeout : Nat
  initialWait : Nat
  maxPolls : Nat
  minPollsForNoError : Nat
deriving DecidableEq, Repr

/-- The bounds as computed in `getDiagnosticsWithLSP`:
`eventTimeout = isLargeFile ? 3000 : 500`, `initialWait = isLargeFile ? 500 : 100`,
`maxPolls = isLargeFile ? 100 : 30`, `minPollsForNoError = isLargeFile ? 60 : 20`. -/
def waitParams (fileContent : String) : WaitParams :=
  if isLargeFile fileContent then
    { eventTimeout := 3000, initialWait := 500, maxPolls := 100, minPollsForNoError := 60 }
  else
    { eventTimeout := 500, initialWait := 100, maxPolls := 30, minPollsForNoError := 20 }

/-! ## The tool as a function of the request and a client oracle -/

/-- The tool's request (`z.infer<typeof schema>`): `virtualContent` is
optional. -/
structure GetDiagnosticsRequest where
  root : String
  filePath : String
  virtualContent : Option String
deriving DecidableEq, Repr

/-- JavaScript truthiness of `request.virtualContent` (used by
`request.virtualContent || readFileSync(...)` and by the two
`!request.virtualContent` guards): present and non-empty. -/
def hasVirtualContent (request : GetDiagnosticsRequest) : Bool :=
  match request.virtualContent with
  | some s => !(s == "")
  | none => false

/-- One call the tool makes on the LSP client object, as recorded in the
execution trace.  The uri argument is the same `fileUri` for every call of one
execution and is therefore not repeated in the trace; the `setTimeout` sleeps
carry no client interaction and are not recorded. -/
inductive ClientOp where
  | closeDocument
  | openDocument (content : String)
  | updateDocument (content : String) (version : Nat)
  | waitForDiagnostics (timeout : Nat)
  | getDiagnostics
deriving DecidableEq, Repr

/-- The successful result shape (`interface GetDiagnosticsSuccess`). -/
structure GetDiagnosticsSuccess where
  message : String
  diagnostics : List Diagnostic
deriving DecidableEq, Repr

/-- Oracle for the external LSP client object (`lspClient.ts` is outside the
sources at hand; per the spec its calls are request/response operations that
can also reject, e.g. with an LspError or after process exit, in which case
the tool's surrounding `try`/`catch` turns the rejection into an `err`
result).
`waitForDiagnostics` is the outcome of the single push-path call
(`.error` = the promise rejected, e.g. a diagnostics timeout);
`getDiagnostics` gives, for each poll attempt `p` of the fallback loop, the
diagnostic set that call returns (or `.error` when the call throws). -/
structure ClientOracle where
  isDocumentOpen : Bool
  hasWaitForDiagnostics : Bool
  waitForDiagnostics : Except Unit (List LSPDiagnostic)
  getDiagnostics : Nat → Except String (List LSPDiagnostic)

/-- The tool's environment: whether `getActiveClient()` succeeds (when it
throws, the thrown message), what `readFileSync` returns for the resolved
path (`.error` = the thrown message, e.g. ENOENT), and the client oracle. -/
structure World where
  clientError : Option String
  readFile : Except String String
  client : ClientOracle

/-- `const fileContent = request.virtualContent || readFileSync(absolutePath, "utf-8")`:
an absent or empty `virtualContent` is falsy, so the on-disk content is used. -/
def resolveFileContent (request : GetDiagnosticsRequest) (w : World) : Except String String :=
  if hasVirtualContent request then .ok (request.virtualContent.getD "") else w.readFile

/-- The `try { await client.waitForDiagnostics(...) } catch { usePolling = true }`
block: if the client has no `waitForDiagnostics` method the call itself throws,
which the same `catch` turns into `usePolling = true`.  Returns
`(usePolling, lspDiagnostics)` (the latter keeps its initial `[]` when the
call did not complete). -/
def runPush (c : ClientOracle) : Bool × List LSPDiagnostic :=
  if c.hasWaitForDiagnostics then
    match c.waitForDiagnostics with
    | .ok diagnostics => (false, diagnostics)
    | .error _ => (true, [])
  else (true, [])

/-- Result of the poll fallback loop: the final `lspDiagnostics` (or the
thrown error), the client calls made, the number of loop iterations
executed (`attempts`), and whether the loop exited through its `break`. -/
structure PollResult where
  result : Except String (List LSPDiagnostic)
  ops : List ClientOp
  attempts : Nat
  broke : Bool
deriving Repr

/-- The poll fallback loop
`for (let poll = 0; poll < maxPolls; poll++) { ... }`, with the remaining
iteration count as fuel (`fuel = maxPolls - poll`): each iteration fetches
`client.getDiagnostics(fileUri)`, breaks when the set is non-empty or
`poll >= minPollsForNoError`, and at `poll === 5 || poll === 10` (without
virtual content) re-sends `updateDocument` with version `poll + 1`.  `acc` is
the current value of the `lspDiagnostics` variable, returned when the loop
exhausts `maxPolls` without breaking. -/
def pollLoopAux (getDiag : Nat → Except String (List LSPDiagnostic)) (minPolls : Nat)
    (hasVirtual : Bool) (fileContent : String) :
    Nat → Nat → List LSPDiagnostic → PollResult
  | _, 0, acc => { result := .ok acc, ops := [], attempts := 0, broke := false }
  | poll, fuel + 1, _ =>
    match getDiag poll with
    | .error e =>
      { result := .error e, ops := [.getDiagnostics], attempts := 1, broke := false }
    | .ok lspDiagnostics =>
      if 0 < lspDiagnostics.length ∨ minPolls ≤ poll then
        { result := .ok lspDiagnostics, ops := [.getDiagnostics], attempts := 1, broke := true }
      else
        let updOps : List ClientOp :=
          if (poll = 5 ∨ poll = 10) ∧ hasVirtual = false then
            [.updateDocument fileContent (poll + 1)]
          else []
        let r := pollLoopAux getDiag minPolls hasVirtual fileContent (poll + 1) fuel lspDiagnostics
        { result := r.result, ops := .getDiagnostics :: updOps ++ r.ops,
          attempts := r.attempts + 1, broke := r.broke }

/-- The success message
`` `Found ${errorCount} error${errorCount !== 1 ? "s" : ""} and ${warningCount} warning${warningCount !== 1 ? "s" : ""} in ${request.filePath}` ``. -/
def successMessage (errorCount warningCount : Nat) (filePath : String) : String :=
  "Found " ++ toString errorCount ++ " error" ++ (if errorCount ≠ 1 then "s" else "")
    ++ " and " ++ toString warningCount ++ " warning"
    ++ (if warningCount ≠ 1 then "s" else "") ++ " in " ++ filePath

/-- The client calls made before any diagnostic arrives, in order: close an
already-open document to force refresh (`isAlreadyOpen`), open the document
with the current content, send the version-2 update when not using virtual
content (`client.updateDocument(fileUri, fileContent, 2)`), and issue the
push-path wait with the content-dependent event timeout. -/
def coreBaseOps (request : GetDiagnosticsRequest) (c : ClientOracle)
    (fileContent : String) : List ClientOp :=
  (if c.isDocumentOpen then [.closeDocument] else []) ++
  [.openDocument fileContent] ++
  (if hasVirtualContent request = false then [.updateDocument fileContent 2] else []) ++
  [.waitForDiagnostics (waitParams fileContent).eventTimeout]

/-- The diagnostic set the tool ends up with after the push attempt and the
conditional poll fallback:
`if (usePolling || (lspDiagnostics.length === 0 && !client.waitForDiagnostics))`
runs the poll loop (`maxPolls` iterations of fuel, `minPollsForNoError`
threshold), otherwise the push result stands. -/
def corePollRes (request : GetDiagnosticsRequest) (c : ClientOracle)
    (fileContent : String) : PollResult :=
  let (usePolling, lspDiagnostics) := runPush c
  if usePolling || (lspDiagnostics.length == 0 && !c.hasWaitForDiagnostics) then
    pollLoopAux c.getDiagnostics (waitParams fileContent).minPollsForNoError
      (hasVirtualContent request) fileContent 0 (waitParams fileContent).maxPolls lspDiagnostics
  else { result := .ok lspDiagnostics, ops := [], attempts := 0, broke := false }

/-- The body of `getDiagnosticsWithLSP` once the active client is obtained
and `fileContent` has been resolved: perform the base calls and the poll
phase, convert the diagnostics, count errors and warnings, close the
document, and build the success message.  Exceptions thrown by client calls
propagate to the function's outer `catch`, which returns `err` without
performing the later calls (in particular without the final
`closeDocument`). -/
def getDiagnosticsCore (request : GetDiagnosticsRequest) (c : ClientOracle)
    (fileContent : String) : Except String GetDiagnosticsSuccess × List ClientOp :=
  let pollRes := corePollRes request c fileContent
  match pollRes.result with
  | .error e => (.error e, coreBaseOps request c fileContent ++ pollRes.ops)
  | .ok finalLspDiagnostics =>
    let diagnostics := finalLspDiagnostics.map convertDiagnostic
    let errorCount := (diagnostics.filter (fun d => d.severity == .error)).length
    let warningCount := (diagnostics.filter (fun d => d.severity == .warning)).length
    -- Always close the document to avoid caching issues
    (.ok { message := successMessage errorCount warningCount request.filePath
           diagnostics := diagnostics },
     coreBaseOps request c fileContent ++ pollRes.ops ++ [.closeDocument])

/-- Shallow embedding of `getDiagnosticsWithLSP`: given the request and the
oracle, returns the `Result` (here `Except`) the function produces together
with the trace of client calls it performs.  A throwing `getActiveClient()`
or `readFileSync` is caught by the function's `try`/`catch` and returned as
`err` before any client call. -/
def getDiagnosticsWithLSP (request : GetDiagnosticsRequest) (w : World) :
    Except String GetDiagnosticsSuccess × List ClientOp :=
  match w.clientError with
  | some e => (.error e, [])
  | none =>
    match resolveFileContent request w with
    | .error e => (.error e, [])
    | .ok fileContent => getDiagnosticsCore request w.client fileContent

/-- The client-side open-state of the (single) document after a trace of
client calls, starting from open-state `b`: `openDocument` opens it,
`closeDocument` closes it, the other calls leave it unchanged. -/
def finalOpenState (b : Bool) : List ClientOp → Bool
  | [] => b
  | .closeDocument :: ops => finalOpenState false ops
  | .openDocument _ :: ops => finalOpenState true ops
  | _ :: ops => finalOpenState b ops

/-! ## Document-symbols result-shape dispatch (from `handleGetDocumentSymbols`) -/

/-- A `location` value of a `SymbolInformation` (`{ uri, range }`).  Only its
presence matters for the dispatch. -/
structure SymLocation where
  uri : String
  range : LSPRange
deriving DecidableEq, Repr

/-- A raw symbol as the server returns it: either shape
(`SymbolInformation` / `DocumentSymbol`), so every shape-defining field is
optional.  `Option` models JavaScript field presence (`"f" in symbol` with a
non-null value). -/
inductive RawSymbol where
  | mk (name : Option String) (kind : Option Nat) (location : Option SymLocation)
      (range : Option LSPRange) (selectionRange : Option LSPRange)
      (children : Option (List RawSymbol))

/-- The `location` field of a raw symbol. -/
def RawSymbol.location : RawSymbol → Option SymLocation
  | .mk _ _ l _ _ _ => l

/-- The `range` field of a raw symbol. -/
def RawSymbol.range : RawSymbol → Option LSPRange
  | .mk _ _ _ r _ _ => r

/-- The `selectionRange` field of a raw symbol. -/
def RawSymbol.selectionRange : RawSymbol → Option LSPRange
  | .mk _ _ _ _ sr _ => sr

/-- The `children` field of a raw symbol. -/
def RawSymbol.children : RawSymbol → Option (List RawSymbol)
  | .mk _ _ _ _ _ c => c

/-- The three formatting branches of the per-symbol loop in
`handleGetDocumentSymbols`. -/
inductive SymbolVariant where
  | symbolInformation
  | documentSymbol
  | unknown
deriving DecidableEq, Repr

/-- The per-symbol dispatch of `handleGetDocumentSymbols`:
`if ("location" in symbol && symbol.location)` format as `SymbolInformation`,
`else if ("range" in symbol || "children" in symbol || "selectionRange" in symbol)`
format as `DocumentSymbol`, else the unknown-format fallback.  (A present
`location` is an object, hence truthy, so presence decides the first test.) -/
def chooseSymbolVariant (symbol : RawSymbol) : SymbolVariant :=
  if symbol.location.isSome then .symbolInformation
  else if symbol.range.isSome ∨ symbol.children.isSome ∨ symbol.selectionRange.isSome then
    .documentSymbol
  else .unknown

/-! ## Document Synchronizer (modelled from the spec) -/

/-- Modelled from the spec: the Document Synchronizer lives in
`lspClient.ts`, which is not among the sources at hand; its contract is the
spec's section 4.4.  Per-uri open state: open flag, version counter, current
content snapshot. -/
structure DocState where
  isOpen : Bool
  version : Nat
  content : String
deriving DecidableEq, Repr

/-- The synchronizer state of a uri the client has never seen. -/
def DocState.initial : DocState := { isOpen := false, version := 0, content := "" }

/-- One synchronizer operation on a fixed uri. -/
inductive DocOp where
  | openDoc (content : String)
  | updateDoc (content : String) (forcedVersion : Option Nat)
  | closeDoc
deriving DecidableEq, Repr

/-- Modelled from the spec (section 4.4, Document Synchronizer):
`open(uri, content)` is a no-op if already open with identical content and
otherwise sends `didOpen` with version 1; `update(uri, content,
forcedVersion?)` increments the version (or adopts `forcedVersion` if provided
and ≥ current + 1) and sends `didChange`; `close(uri)` sends `didClose` (which
carries no version) and marks the document closed.  Returns the new state and
the version number sent to the server, if the sent notification carries one. -/
def syncStep (s : DocState) : DocOp → DocState × Option Nat
  | .openDoc c =>
    if s.isOpen ∧ s.content = c then (s, none)
    else ({ isOpen := true, version := 1, content := c }, some 1)
  | .updateDoc c fv =>
    let v := match fv with
      | some f => if s.version + 1 ≤ f then f else s.version + 1
      | none => s.version + 1
    ({ s with version := v, content := c }, some v)
  | .closeDoc => ({ s with isOpen := false }, none)

/-- Runs a sequence of synchronizer operations, collecting the versions sent
to the server in order. -/
def syncRun (s : DocState) : List DocOp → DocState × List Nat
  | [] => (s, [])
  | op :: ops =>
    let (s', v) := syncStep s op
    let (s'', vs) := syncRun s' ops
    (s'', (v.toList) ++ vs)

/-! ## Concrete executions used as test vectors -/

/-- A request carrying (non-empty) virtual content. -/
def requestVirtual : GetDiagnosticsRequest :=
  { root := "/proj", filePath := "test.ts", virtualContent := some "const x: string = 123;" }

/-- A client on which the push path rejects (diagnostics timeout) and every
poll of the fallback loop returns the empty set. -/
def clientPushTimeoutNoDiags : ClientOracle :=
  { isDocumentOpen := false, hasWaitForDiagnostics := true,
    waitForDiagnostics := .error (), getDiagnostics := fun _ => .ok [] }

/-- The world around `clientPushTimeoutNoDiags` (the on-disk file is never
read, since the request carries virtual content). -/
def worldPushTimeout : World :=
  { clientError := none, readFile := .error "ENOENT", client := clientPushTimeoutNoDiags }

/-- Same world, but the document is already open in the client when the tool
is called. -/
def worldOpenPushTimeout : World :=
  { worldPushTimeout with client := { clientPushTimeoutNoDiags with isDocumentOpen := true } }

/-- Same world, but every `getDiagnostics` call throws (per the spec, client
calls fail fast once the server process has exited). -/
def worldPollThrows : World :=
  { worldPushTimeout with
    client := { clientPushTimeoutNoDiags with
                getDiagnostics := fun _ => .error "LSP server process exited" } }

/-- A raw LSP diagnostic with an explicit error severity. -/
def exampleLSPDiagnostic : LSPDiagnostic :=
  { range := { start := { line := 2, character := 4 }, endPos := { line := 2, character := 9 } }
    severity := some 1, code := none, source := some "typescript", message := "Type error" }

/-- A world where the push path immediately delivers one diagnostic. -/
def worldPushOne : World :=
  { clientError := none, readFile := .error "ENOENT"
    client := { isDocumentOpen := false, hasWaitForDiagnostics := true,
                waitForDiagnostics := .ok [exampleLSPDiagnostic],
                getDiagnostics := fun _ => .ok [] } }

/-- The result the tool produces on `requestVirtual` and `worldPushOne`. -/
def resultPushOne : GetDiagnosticsSuccess :=
  { message := successMessage 1 0 "test.ts"
    diagnostics := [convertDiagnostic exampleLSPDiagnostic] }

/-- The trace the tool performs on `requestVirtual` and `worldPushOne`. -/
def tracePushOne : List ClientOp :=
  [.openDocument "const x: string = 123;", .waitForDiagnostics 500, .closeDocument]

/-- The claim under scrutiny for the timeout-surfacing behavior of the tool:
whenever the push path produced no result (its `waitForDiagnostics` call
rejected, so `usePolling` was set) and no poll of the fallback loop ever
observes a diagnostic within its bounds, the tool surfaces an error rather
than an ok result reporting 0 errors and 0 warnings. -/
def timeoutSurfacedClaim : Prop :=
  ∀ (request : GetDiagnosticsRequest) (w : World),
    w.clientError = none →
    runPush w.client = (true, []) →
    (∀ p, w.client.getDiagnostics p = .ok []) →
    (getDiagnosticsWithLSP request w).1.isOk = false

/-- A raw diagnostic whose `severity` field is absent. -/
def exampleNoSeverity : LSPDiagnostic :=
  { range := { start := { line := 0, character := 0 }, endPos := { line := 0, character := 3 } }
    severity := none, code := none, source := none, message := "missing severity" }

/-- A raw diagnostic whose numeric `severity` lies outside 1–4. -/
def exampleSeverityNine : LSPDiagnostic :=
  { range := { start := { line := 1, character := 0 }, endPos := { line := 1, character := 2 } }
    severity := some 9, code := none, source := none, message := "strange severity" }

/-- A poll oracle that always reports no diagnostics. -/
def noDiags : Nat → List LSPDiagnostic := fun _ => []

/-- `noDiags` wrapped as a non-throwing `getDiagnostics` oracle. -/
def noDiagsE : Nat → Except String (List LSPDiagnostic) := fun _ => .ok []

/-- A sample range. -/
def exampleRange : LSPRange :=
  { start := { line := 4, character := 0 }, endPos := { line := 9, character := 1 } }

/-- A raw symbol carrying a `location` field (the `SymbolInformation` shape). -/
def symbolWithLocation : RawSymbol :=
  .mk (some "calculate") (some 12) (some { uri := "file:///a.fs", range := exampleRange })
    none none none

/-- A raw symbol carrying `range`/`selectionRange`/`children` but no
`location` (the `DocumentSymbol` shape). -/
def symbolWithRange : RawSymbol :=
  .mk (some "Calculator") (some 2) none (some exampleRange) (some exampleRange) (some [])

/-! ## Helper lemmas -/

lemma SEVERITY_MAP_out_of_range (n : Int) (h : n < 1 ∨ 4 < n) : SEVERITY_MAP n = none := by
  unfold SEVERITY_MAP
  rw [if_neg (by omega), if_neg (by omega), if_neg (by omega), if_neg (by omega)]

lemma getDiagnosticsWithLSP_eq_core (request : GetDiagnosticsRequest) (w : World)
    (fileContent : String) (hc : w.clientError = none)
    (hfc : resolveFileContent request w = .ok fileContent) :
    getDiagnosticsWithLSP request w = getDiagnosticsCore request w.client fileContent := by
  simp only [getDiagnosticsWithLSP, hc, hfc]

lemma getDiagnosticsCore_ok (request : GetDiagnosticsRequest) (c : ClientOracle)
    (fileContent : String) (res : GetDiagnosticsSuccess) (ops : List ClientOp)
    (h : getDiagnosticsCore request c fileContent = (.ok res, ops)) :
    ∃ (pre : List ClientOp) (l : List LSPDiagnostic),
      ops = pre ++ [.closeDocument] ∧
      res = { message := successMessage
                ((l.map convertDiagnostic).filter (fun d => d.severity == .error)).length
                ((l.map convertDiagnostic).filter (fun d => d.severity == .warning)).length
                request.filePath
              diagnostics := l.map convertDiagnostic } := by
  simp only [getDiagnosticsCore] at h
  split at h
  · simp at h
  · rename_i finalLspDiagnostics heq
    simp only [Prod.mk.injEq, Except.ok.injEq] at h
    exact ⟨_, finalLspDiagnostics, h.2.symm, h.1.symm⟩

lemma pollLoopAux_no_update (getDiag : Nat → Except String (List LSPDiagnostic))
    (minPolls : Nat) (fc : String) :
    ∀ (fuel poll : Nat) (acc : List LSPDiagnostic) (c : String) (v : Nat),
      ClientOp.updateDocument c v ∉ (pollLoopAux getDiag minPolls true fc poll fuel acc).ops := by
  intro fuel
  induction fuel with
  | zero => intro poll acc c v; simp [pollLoopAux]
  | succ n ih =>
    intro poll acc c v
    simp only [pollLoopAux]
    cases hg : getDiag poll with
    | error e => simp
    | ok ds =>
      by_cases hb : 0 < ds.length ∨ minPolls ≤ poll
      · simp [hb]
      · simp [hb, ih (poll + 1) ds c v]

lemma pollLoopAux_all_empty (getDiag : Nat → Except String (List LSPDiagnostic))
    (hg : ∀ p, getDiag p = .ok []) (minPolls : Nat) (hv : Bool) (fc : String) :
    ∀ (fuel poll : Nat),
      (pollLoopAux getDiag minPolls hv fc poll fuel []).result = .ok [] := by
  intro fuel
  induction fuel with
  | zero => intro poll; rfl
  | succ n ih =>
    intro poll
    simp only [pollLoopAux, hg poll]
    by_cases hb : minPolls ≤ poll
    · simp [hb]
    · simp only [hb, if_false]
      exact ih (poll + 1)

lemma pollLoopAux_attempts_le (g : Nat → List LSPDiagnostic) (minPolls : Nat)
    (hv : Bool) (fc : String) :
    ∀ (fuel poll : Nat) (acc : List LSPDiagnostic),
      (pollLoopAux (fun p => .ok (g p)) minPolls hv fc poll fuel acc).attempts ≤ fuel := by
  intro fuel
  induction fuel with
  | zero => intro poll acc; exact Nat.le_refl 0
  | succ n ih =>
    intro poll acc
    simp only [pollLoopAux]
    by_cases hb : 0 < (g poll).length ∨ minPolls ≤ poll
    · simp [hb]
    · simp only [hb, if_false]
      exact Nat.succ_le_succ (ih (poll + 1) (g poll))

lemma pollLoopAux_broke_iff (g : Nat → List LSPDiagnostic) (minPolls : Nat)
    (hv : Bool) (fc : String) :
    ∀ (fuel poll : Nat) (acc : List LSPDiagnostic),
      ((pollLoopAux (fun p => .ok (g p)) minPolls hv fc poll fuel acc).broke = true ↔
        ∃ k < fuel, g (poll + k) ≠ [] ∨ minPolls ≤ poll + k) := by
  intro fuel
  induction fuel with
  | zero => intro poll acc; simp [pollLoopAux]
  | succ n ih =>
    intro poll acc
    simp only [pollLoopAux]
    by_cases hb : 0 < (g poll).length ∨ minPolls ≤ poll
    · rw [if_pos hb]
      constructor
      · intro _
        exact ⟨0, Nat.succ_pos n, by
          simpa [List.length_pos] using hb⟩
      · intro _; rfl
    · rw [if_neg hb]
      have hnot : g poll = [] ∧ poll < minPolls := by
        push_neg at hb
        exact ⟨by simpa [List.length_pos] using hb.1, by omega⟩
      constructor
      · intro hbroke
        obtain ⟨k, hk, hc⟩ := (ih (poll + 1) (g poll)).mp hbroke
        exact ⟨k + 1, by omega, by
          have he : poll + 1 + k = poll + (k + 1) := by omega
          rwa [he] at hc⟩
      · rintro ⟨k, hk, hc⟩
        apply (ih (poll + 1) (g poll)).mpr
        match k with
        | 0 =>
          exfalso
          rcases hc with hc | hc
          · exact hc (by simpa using hnot.1)
          · omega
        | k + 1 =>
          exact ⟨k, by omega, by
            have he : poll + (k + 1) = poll + 1 + k := by omega
            rwa [he] at hc⟩

lemma pollLoopAux_broke_first (g : Nat → List LSPDiagnostic) (minPolls : Nat)
    (hv : Bool) (fc : String) :
    ∀ (fuel poll : Nat) (acc : List LSPDiagnostic),
      (pollLoopAux (fun p => .ok (g p)) minPolls hv fc poll fuel acc).broke = true →
        1 ≤ (pollLoopAux (fun p => .ok (g p)) minPolls hv fc poll fuel acc).attempts ∧
        (g (poll + (pollLoopAux (fun p => .ok (g p)) minPolls hv fc poll fuel acc).attempts - 1) ≠ []
          ∨ minPolls ≤ poll + (pollLoopAux (fun p => .ok (g p)) minPolls hv fc poll fuel acc).attempts - 1) ∧
        ∀ k < (pollLoopAux (fun p => .ok (g p)) minPolls hv fc poll fuel acc).attempts - 1,
          g (poll + k) = [] ∧ poll + k < minPolls := by
  intro fuel
  induction fuel with
  | zero => intro poll acc h; simp [pollLoopAux] at h
  | succ n ih =>
    intro poll acc
    simp only [pollLoopAux]
    by_cases hb : 0 < (g poll).length ∨ minPolls ≤ poll
    · simp only [hb, if_true]
      intro _
      refine ⟨Nat.le_refl 1, ?_, ?_⟩
      · simpa [List.length_pos] using hb
      · intro k hk; omega
    · simp only [hb, if_false]
      intro hbroke
      obtain ⟨h1, h2, h3⟩ := ih (poll + 1) (g poll) hbroke
      have hnot : g poll = [] ∧ poll < minPolls := by
        push_neg at hb
        exact ⟨by simpa [List.length_pos] using hb.1, by omega⟩
      set A := (pollLoopAux (fun p => .ok (g p)) minPolls hv fc (poll + 1) n (g poll)).attempts with hA
      refine ⟨by omega, ?_, ?_⟩
      · have : poll + (A + 1) - 1 = poll + 1 + A - 1 := by omega
        rw [this]; exact h2
      · intro k hk
        match k with
        | 0 => simpa using hnot
        | k + 1 =>
          have : poll + (k + 1) = poll + 1 + k := by omega
          rw [this]
          exact h3 k (by omega)

lemma finalOpenState_append (l1 l2 : List ClientOp) :
    ∀ b, finalOpenState b (l1 ++ l2) = finalOpenState (finalOpenState b l1) l2 := by
  induction l1 with
  | nil => intro b; rfl
  | cons op l ih => intro b; cases op <;> simp [finalOpenState, ih]

lemma syncRun_append (l1 l2 : List DocOp) :
    ∀ s : DocState,
      syncRun s (l1 ++ l2) =
        ((syncRun (syncRun s l1).1 l2).1,
          (syncRun s l1).2 ++ (syncRun (syncRun s l1).1 l2).2) := by
  induction l1 with
  | nil => intro s; simp [syncRun]
  | cons op l ih =>
    intro s
    simp only [List.cons_append, syncRun]
    simp only [List.append_eq]
    rw [ih]
    simp [List.append_assoc]

lemma syncStep_update_version (s : DocState) (c : String) (fv : Option Nat) :
    s.version < ((syncStep s (.updateDoc c fv)).1).version ∧
      (syncStep s (.updateDoc c fv)).2 = some ((syncStep s (.updateDoc c fv)).1).version := by
  cases fv with
  | none => exact ⟨Nat.lt_succ_self _, rfl⟩
  | some f =>
    refine ⟨?_, rfl⟩
    show s.version < if s.version + 1 ≤ f then f else s.version + 1
    split <;> omega

lemma syncRun_updates_chain (us : List (String × Option Nat)) :
    ∀ s : DocState,
      List.Chain' (· < ·)
        (s.version :: (syncRun s (us.map fun u => DocOp.updateDoc u.1 u.2)).2) := by
  induction us with
  | nil => intro s; simp [syncRun]
  | cons u us ih =>
    intro s
    simp only [List.map_cons, syncRun]
    obtain ⟨hlt, hsend⟩ := syncStep_update_version s u.1 u.2
    rw [hsend]
    simp only [Option.toList_some, List.singleton_append]
    exact List.Chain'.cons hlt (ih (syncStep s (.updateDoc u.1 u.2)).1)

lemma getDiagnosticsWithLSP_ok (request : GetDiagnosticsRequest) (w : World)
    (res : GetDiagnosticsSuccess) (ops : List ClientOp)
    (h : getDiagnosticsWithLSP request w = (.ok res, ops)) :
    ∃ (pre : List ClientOp) (l : List LSPDiagnostic),
      ops = pre ++ [.closeDocument] ∧
      res = { message := successMessage
                ((l.map convertDiagnostic).filter (fun d => d.severity == .error)).length
                ((l.map convertDiagnostic).filter (fun d => d.severity == .warning)).length
                request.filePath
              diagnostics := l.map convertDiagnostic } := by
  unfold getDiagnosticsWithLSP at h
  split at h
  · simp at h
  · split at h
    · simp at h
    · exact getDiagnosticsCore_ok _ _ _ _ _ h

/-! ## Claims -/

/-- C4: every diagnostic returned to the tool caller is obtained from the raw
LSP diagnostic by exactly one conversion from the 0-based LSP convention to
the 1-based tool-facing convention: `line = range.start.line + 1`,
`column = range.start.character + 1`, `endLine = range.end.line + 1`,
`endColumn = range.end.character + 1`. -/
theorem lspGetDiagnostics_positions_one_based (request : GetDiagnosticsRequest) (w : World)
    (res : GetDiagnosticsSuccess) (ops : List ClientOp)
    (h : getDiagnosticsWithLSP request w = (.ok res, ops)) :
    ∀ d ∈ res.diagnostics, ∃ diag : LSPDiagnostic, d = convertDiagnostic diag ∧
      d.line = diag.range.start.line + 1 ∧
      d.column = diag.range.start.character + 1 ∧
      d.endLine = diag.range.endPos.line + 1 ∧
      d.endColumn = diag.range.endPos.character + 1 := by
  obtain ⟨pre, l, -, hres⟩ := getDiagnosticsWithLSP_ok _ _ _ _ h
  intro d hd
  rw [hres] at hd
  simp only at hd
  obtain ⟨raw, hraw, rfl⟩ := List.mem_map.mp hd
  exact ⟨raw, rfl, rfl, rfl, rfl, rfl⟩

/-- Witness for C4: a concrete successful run that returns one diagnostic. -/
theorem lspGetDiagnostics_positions_one_based_witness :
    getDiagnosticsWithLSP requestVirtual worldPushOne = (.ok resultPushOne, tracePushOne) ∧
    ∀ d ∈ resultPushOne.diagnostics, ∃ diag : LSPDiagnostic, d = convertDiagnostic diag ∧
      d.line = diag.range.start.line + 1 ∧
      d.column = diag.range.start.character + 1 ∧
      d.endLine = diag.range.endPos.line + 1 ∧
      d.endColumn = diag.range.endPos.character + 1 :=
  ⟨rfl, lspGetDiagnostics_positions_one_based requestVirtual worldPushOne
    resultPushOne tracePushOne rfl⟩

/-- C9: a raw diagnostic with an absent severity is reported with severity
"error" (absent defaults to 1 = error), a numeric severity outside 1–4 is
also reported as "error", and such a diagnostic is counted by the error count
of the result message. -/
theorem lspGetDiagnostics_severity_defaults_to_error :
    (∀ diag : LSPDiagnostic, diag.severity = none →
      (convertDiagnostic diag).severity = .error) ∧
    (∀ (diag : LSPDiagnostic) (n : Int), diag.severity = some n → n < 1 ∨ 4 < n →
      (convertDiagnostic diag).severity = .error) ∧
    (∀ (l : List LSPDiagnostic) (diag : LSPDiagnostic), diag ∈ l →
      (convertDiagnostic diag).severity = .error →
      1 ≤ ((l.map convertDiagnostic).filter (fun d => d.severity == .error)).length) := by
  refine ⟨?_, ?_, ?_⟩
  · intro diag h
    simp [convertDiagnostic, h, SEVERITY_MAP]
  · intro diag n h hn
    simp [convertDiagnostic, h, SEVERITY_MAP_out_of_range n hn]
  · intro l diag hmem hsev
    have hin : convertDiagnostic diag ∈
        (l.map convertDiagnostic).filter (fun d => d.severity == .error) :=
      List.mem_filter.mpr ⟨List.mem_map_of_mem _ hmem, by simp [hsev]⟩
    exact List.length_pos.mpr (List.ne_nil_of_mem hin)

/-- Witness for C9: a diagnostic with absent severity and one with severity 9
are both reported as errors and counted. -/
theorem lspGetDiagnostics_severity_defaults_to_error_witness :
    exampleNoSeverity.severity = none ∧
    (convertDiagnostic exampleNoSeverity).severity = .error ∧
    exampleSeverityNine.severity = some 9 ∧ ((9 : Int) < 1 ∨ (4 : Int) < 9) ∧
    (convertDiagnostic exampleSeverityNine).severity = .error ∧
    exampleNoSeverity ∈ [exampleNoSeverity, exampleSeverityNine] ∧
    1 ≤ (([exampleNoSeverity, exampleSeverityNine].map convertDiagnostic).filter
          (fun d => d.severity == .error)).length :=
  ⟨rfl,
   lspGetDiagnostics_severity_defaults_to_error.1 exampleNoSeverity rfl,
   rfl,
   Or.inr (by decide),
   lspGetDiagnostics_severity_defaults_to_error.2.1 exampleSeverityNine 9 rfl
     (Or.inr (by decide)),
   by simp,
   lspGetDiagnostics_severity_defaults_to_error.2.2 _ exampleNoSeverity (by simp)
     (lspGetDiagnostics_severity_defaults_to_error.1 exampleNoSeverity rfl)⟩

/-- C10: calling the tool with `virtualContent` equal to the empty string is
indistinguishable from omitting `virtualContent`: the empty string is falsy,
so the on-disk content is analyzed, and the whole execution (result and
client-call trace) coincides with the omitted-field execution. -/
theorem lspGetDiagnostics_empty_virtualContent_ignored (root filePath : String) (w : World) :
    getDiagnosticsWithLSP { root := root, filePath := filePath, virtualContent := some "" } w =
      getDiagnosticsWithLSP { root := root, filePath := filePath, virtualContent := none } w := rfl

/-- C7: the waiting bounds are monotone in the document's line count, and the
large-document values apply exactly when the content has more than 100
lines. -/
theorem waitParams_monotone_in_lineCount :
    (∀ c1 c2 : String, lineCount c1 ≤ lineCount c2 →
      (waitParams c1).eventTimeout ≤ (waitParams c2).eventTimeout ∧
      (waitParams c1).initialWait ≤ (waitParams c2).initialWait ∧
      (waitParams c1).maxPolls ≤ (waitParams c2).maxPolls ∧
      (waitParams c1).minPollsForNoError ≤ (waitParams c2).minPollsForNoError) ∧
    (∀ c : String, waitParams c =
        { eventTimeout := 3000, initialWait := 500, maxPolls := 100, minPollsForNoError := 60 } ↔
      100 < lineCount c) := by
  constructor
  · intro c1 c2 h
    unfold waitParams isLargeFile
    by_cases h1 : lineCount c1 > 100
    · have h2 : lineCount c2 > 100 := lt_of_lt_of_le h1 h
      simp [h1, h2]
    · by_cases h2 : lineCount c2 > 100 <;> simp [h1, h2]
  · intro c
    unfold waitParams isLargeFile
    by_cases hc : lineCount c > 100
    · simp [hc]
    · rw [if_neg (by simp [hc])]
      constructor
      · intro h
        have he := congrArg WaitParams.eventTimeout h
        simp at he
      · intro h
        exact absurd h hc

/-- Witness for C7: concrete small contents. -/
theorem waitParams_monotone_in_lineCount_witness :
    lineCount "a" ≤ lineCount "a\nb" ∧
    ((waitParams "a").eventTimeout ≤ (waitParams "a\nb").eventTimeout ∧
     (waitParams "a").initialWait ≤ (waitParams "a\nb").initialWait ∧
     (waitParams "a").maxPolls ≤ (waitParams "a\nb").maxPolls ∧
     (waitParams "a").minPollsForNoError ≤ (waitParams "a\nb").minPollsForNoError) ∧
    (waitParams "a" =
        { eventTimeout := 3000, initialWait := 500, maxPolls := 100, minPollsForNoError := 60 } ↔
      100 < lineCount "a") :=
  ⟨by decide, waitParams_monotone_in_lineCount.1 "a" "a\nb" (by decide),
   waitParams_monotone_in_lineCount.2 "a"⟩

/-- C8: the formatting variant of a document symbol is chosen
deterministically from the presence of shape-defining fields: a present
`location` field selects the `SymbolInformation` variant; otherwise a present
`range`, `children`, or `selectionRange` field selects the `DocumentSymbol`
variant. -/
theorem chooseSymbolVariant_by_shape (symbol : RawSymbol) :
    (symbol.location.isSome = true → chooseSymbolVariant symbol = .symbolInformation) ∧
    (symbol.location = none →
      symbol.range.isSome = true ∨ symbol.children.isSome = true ∨
        symbol.selectionRange.isSome = true →
      chooseSymbolVariant symbol = .documentSymbol) := by
  constructor
  · intro h
    simp [chooseSymbolVariant, h]
  · intro h1 h2
    rcases h2 with h2 | h2 | h2 <;> simp [chooseSymbolVariant, h1, h2]

/-- Witness for C8: a symbol with a `location` field and one with
`range`/`children`/`selectionRange` fields. -/
theorem chooseSymbolVariant_by_shape_witness :
    (symbolWithLocation.location.isSome = true ∧
      chooseSymbolVariant symbolWithLocation = .symbolInformation) ∧
    (symbolWithRange.location = none ∧
      symbolWithRange.range.isSome = true ∧
      chooseSymbolVariant symbolWithRange = .documentSymbol) :=
  ⟨⟨rfl, (chooseSymbolVariant_by_shape symbolWithLocation).1 rfl⟩,
   ⟨rfl, rfl, (chooseSymbolVariant_by_shape symbolWithRange).2 rfl (Or.inl rfl)⟩⟩

/-- C3: the poll fallback loop performs at most `maxPolls` attempts, and it
stops early (through its `break`) exactly when a non-empty diagnostic set has
been observed or the minimum poll count for trusting an empty result has
elapsed; when it breaks it does so at the first such poll. -/
theorem pollLoop_bounded_stops_on_confidence
    (getDiag : Nat → Except String (List LSPDiagnostic)) (g : Nat → List LSPDiagnostic)
    (hg : ∀ p, getDiag p = .ok (g p)) (minPolls maxPolls : Nat) (hv : Bool) (fc : String)
    (init : List LSPDiagnostic) :
    (pollLoopAux getDiag minPolls hv fc 0 maxPolls init).attempts ≤ maxPolls ∧
    ((pollLoopAux getDiag minPolls hv fc 0 maxPolls init).broke = true ↔
      ∃ p < maxPolls, g p ≠ [] ∨ minPolls ≤ p) ∧
    ((pollLoopAux getDiag minPolls hv fc 0 maxPolls init).broke = true →
      1 ≤ (pollLoopAux getDiag minPolls hv fc 0 maxPolls init).attempts ∧
      (g ((pollLoopAux getDiag minPolls hv fc 0 maxPolls init).attempts - 1) ≠ [] ∨
        minPolls ≤ (pollLoopAux getDiag minPolls hv fc 0 maxPolls init).attempts - 1) ∧
      ∀ q < (pollLoopAux getDiag minPolls hv fc 0 maxPolls init).attempts - 1,
        g q = [] ∧ q < minPolls) := by
  have hfun : getDiag = fun p => .ok (g p) := funext hg
  subst hfun
  refine ⟨pollLoopAux_attempts_le g minPolls hv fc maxPolls 0 init, ?_, ?_⟩
  · simpa using pollLoopAux_broke_iff g minPolls hv fc maxPolls 0 init
  · intro hb
    simpa using pollLoopAux_broke_first g minPolls hv fc maxPolls 0 init hb

/-- Witness for C3: the always-empty poll oracle with `minPolls = 2` and
`maxPolls = 5`. -/
theorem pollLoop_bounded_stops_on_confidence_witness :
    (∀ p, noDiagsE p = Except.ok (noDiags p)) ∧
    ((pollLoopAux noDiagsE 2 true "x" 0 5 []).attempts ≤ 5 ∧
     ((pollLoopAux noDiagsE 2 true "x" 0 5 []).broke = true ↔
       ∃ p < 5, noDiags p ≠ [] ∨ 2 ≤ p) ∧
     ((pollLoopAux noDiagsE 2 true "x" 0 5 []).broke = true →
       1 ≤ (pollLoopAux noDiagsE 2 true "x" 0 5 []).attempts ∧
       (noDiags ((pollLoopAux noDiagsE 2 true "x" 0 5 []).attempts - 1) ≠ [] ∨
         2 ≤ (pollLoopAux noDiagsE 2 true "x" 0 5 []).attempts - 1) ∧
       ∀ q < (pollLoopAux noDiagsE 2 true "x" 0 5 []).attempts - 1,
         noDiags q = [] ∧ q < 2)) :=
  ⟨fun _ => rfl,
   pollLoop_bounded_stops_on_confidence noDiagsE noDiags (fun _ => rfl) 2 5 true "x" []⟩

/-- C5 (Document Synchronizer modelled from the spec, `lspClient.ts` not
being among the sources at hand): over any `open → update×N → close`
sequence, the versions sent to the server are strictly increasing; after the
close, reopening sends version 1 again (the only reset); and an update adopts
a caller-supplied forced version exactly when it is ≥ current + 1, otherwise
it increments the current version. -/
theorem docSync_version_strictly_increasing (c : String) (us : List (String × Option Nat))
    (c' : String) :
    List.Chain' (· < ·)
      (syncRun DocState.initial
        (DocOp.openDoc c :: ((us.map fun u => DocOp.updateDoc u.1 u.2) ++ [DocOp.closeDoc]))).2 ∧
    (syncStep (syncRun DocState.initial
        (DocOp.openDoc c :: ((us.map fun u => DocOp.updateDoc u.1 u.2) ++ [DocOp.closeDoc]))).1
        (DocOp.openDoc c')).2 = some 1 ∧
    (∀ (s : DocState) (c2 : String) (f : Nat),
      (syncStep s (DocOp.updateDoc c2 (some f))).2 =
        some (if s.version + 1 ≤ f then f else s.version + 1)) := by
  have hopen : syncStep DocState.initial (DocOp.openDoc c) =
      ({ isOpen := true, version := 1, content := c }, some 1) := by
    simp [syncStep, DocState.initial]
  refine ⟨?_, ?_, fun s c2 f => rfl⟩
  · simp only [syncRun, hopen]
    rw [syncRun_append]
    have hclose : ∀ s : DocState, (syncRun s [DocOp.closeDoc]).2 = [] := fun s => rfl
    rw [hclose]
    simpa using
      syncRun_updates_chain us { isOpen := true, version := 1, content := c }
  · simp only [syncRun, hopen]
    rw [syncRun_append]
    have hclose : ∀ s : DocState,
        (syncRun s [DocOp.closeDoc]).1 = { s with isOpen := false } := fun s => rfl
    rw [hclose]
    simp [syncStep]

lemma coreBaseOps_cons (request : GetDiagnosticsRequest) (c : ClientOracle)
    (fileContent : String) (hopen : c.isDocumentOpen = true) :
    coreBaseOps request c fileContent =
      ClientOp.closeDocument :: ClientOp.openDocument fileContent ::
        ((if hasVirtualContent request = false
            then [ClientOp.updateDocument fileContent 2] else []) ++
          [ClientOp.waitForDiagnostics (waitParams fileContent).eventTimeout]) := by
  simp [coreBaseOps, hopen]

lemma corePollRes_no_update (request : GetDiagnosticsRequest) (c : ClientOracle)
    (fileContent : String) (hv : hasVirtualContent request = true)
    (c' : String) (v : Nat) :
    ClientOp.updateDocument c' v ∉ (corePollRes request c fileContent).ops := by
  unfold corePollRes
  rcases hrp : runPush c with ⟨up, ld⟩
  simp only [hv]
  split
  · exact pollLoopAux_no_update c.getDiagnostics _ _ _ _ _ _ _
  · simp

lemma getDiagnosticsCore_trace (request : GetDiagnosticsRequest) (c : ClientOracle)
    (fileContent : String) :
    ∃ rest, (getDiagnosticsCore request c fileContent).2 =
        coreBaseOps request c fileContent ++ rest ∧
      ∀ (c' : String) (v : Nat), ClientOp.updateDocument c' v ∈ rest →
        ClientOp.updateDocument c' v ∈ (corePollRes request c fileContent).ops := by
  cases h : (corePollRes request c fileContent).result with
  | error e =>
    refine ⟨(corePollRes request c fileContent).ops, ?_, fun c' v hm => hm⟩
    simp [getDiagnosticsCore, h]
  | ok l =>
    refine ⟨(corePollRes request c fileContent).ops ++ [ClientOp.closeDocument], ?_, ?_⟩
    · simp [getDiagnosticsCore, h, List.append_assoc]
    · intro c' v hm
      rcases List.mem_append.mp hm with hm | hm
      · exact hm
      · simp at hm

/-- C1: on a URI whose document is already open in the client, the tool first
closes the document and then reopens it with the content to be checked,
before any waiting for diagnostics (the close and reopen are the first two
client calls of the trace); and when checking (non-empty) virtual content it
never sends any in-place `updateDocument` at all. -/
theorem lspGetDiagnostics_close_then_reopen (request : GetDiagnosticsRequest) (w : World)
    (fileContent : String) (hc : w.clientError = none)
    (hopen : w.client.isDocumentOpen = true)
    (hfc : resolveFileContent request w = .ok fileContent) :
    (getDiagnosticsWithLSP request w).2.take 2 =
      [ClientOp.closeDocument, ClientOp.openDocument fileContent] ∧
    (hasVirtualContent request = true →
      ∀ (c : String) (v : Nat),
        ClientOp.updateDocument c v ∉ (getDiagnosticsWithLSP request w).2) := by
  rw [getDiagnosticsWithLSP_eq_core request w fileContent hc hfc]
  obtain ⟨rest, htr, hup⟩ := getDiagnosticsCore_trace request w.client fileContent
  rw [htr]
  constructor
  · rw [coreBaseOps_cons request w.client fileContent hopen]
    simp
  · intro hv c v hmem
    rcases List.mem_append.mp hmem with hm | hm
    · simp [coreBaseOps, hv] at hm
    · exact corePollRes_no_update request w.client fileContent hv c v (hup c v hm)

/-- Witness for C1: a concrete call on an already-open document with virtual
content. -/
theorem lspGetDiagnostics_close_then_reopen_witness :
    worldOpenPushTimeout.clientError = none ∧
    worldOpenPushTimeout.client.isDocumentOpen = true ∧
    resolveFileContent requestVirtual worldOpenPushTimeout = .ok "const x: string = 123;" ∧
    ((getDiagnosticsWithLSP requestVirtual worldOpenPushTimeout).2.take 2 =
      [ClientOp.closeDocument, ClientOp.openDocument "const x: string = 123;"] ∧
     (hasVirtualContent requestVirtual = true →
      ∀ (c : String) (v : Nat),
        ClientOp.updateDocument c v ∉ (getDiagnosticsWithLSP requestVirtual worldOpenPushTimeout).2)) :=
  ⟨rfl, rfl, rfl,
   lspGetDiagnostics_close_then_reopen requestVirtual worldOpenPushTimeout
     "const x: string = 123;" rfl rfl rfl⟩

/-- C6 counterexample: the whole operation does not leave the document's
open-state unchanged.  A successful run on an initially-open document ends
with the document closed (open-state changed from open to closed), and an
execution that ends in an error (here: every poll-phase `getDiagnostics`
call throws) performs no final close and leaves the document open. -/
theorem lspGetDiagnostics_open_state_changed :
    ((getDiagnosticsWithLSP requestVirtual worldOpenPushTimeout).1.isOk = true ∧
      worldOpenPushTimeout.client.isDocumentOpen = true ∧
      finalOpenState true (getDiagnosticsWithLSP requestVirtual worldOpenPushTimeout).2 = false) ∧
    ((getDiagnosticsWithLSP requestVirtual worldPollThrows).1.isOk = false ∧
      worldPollThrows.client.isDocumentOpen = false ∧
      finalOpenState false (getDiagnosticsWithLSP requestVirtual worldPollThrows).2 = true ∧
      (getDiagnosticsWithLSP requestVirtual worldPollThrows).2.getLast? ≠
        some ClientOp.closeDocument) := by
  refine ⟨⟨rfl, rfl, rfl⟩, rfl, rfl, rfl, ?_⟩
  decide

/-- C6 as amended: on every execution that produces a diagnostics result
(returns `ok`), the tool's last client call is `closeDocument`, so the
document ends closed whatever its initial open-state; executions that end in
an error return without the final close and can leave the document open. -/
theorem lspGetDiagnostics_ok_closes_document (request : GetDiagnosticsRequest) (w : World)
    (res : GetDiagnosticsSuccess) (ops : List ClientOp)
    (h : getDiagnosticsWithLSP request w = (.ok res, ops)) :
    ops.getLast? = some ClientOp.closeDocument ∧ ∀ b, finalOpenState b ops = false := by
  obtain ⟨pre, l, hops, -⟩ := getDiagnosticsWithLSP_ok _ _ _ _ h
  subst hops
  constructor
  · exact List.getLast?_concat _
  · intro b
    rw [finalOpenState_append]
    rfl

/-- Witness for C6 (amended): a concrete successful run. -/
theorem lspGetDiagnostics_ok_closes_document_witness :
    getDiagnosticsWithLSP requestVirtual worldPushOne = (.ok resultPushOne, tracePushOne) ∧
    (tracePushOne.getLast? = some ClientOp.closeDocument ∧
      ∀ b, finalOpenState b tracePushOne = false) :=
  ⟨rfl, lspGetDiagnostics_ok_closes_document requestVirtual worldPushOne
    resultPushOne tracePushOne rfl⟩

/-- C2 counterexample: the claim that a run in which the push path produced
nothing (its wait rejected) and no poll ever observed a diagnostic surfaces a
distinct timeout error is false — on such a run the tool returns a success
result reporting 0 errors and 0 warnings. -/
theorem lspGetDiagnostics_timeout_claim_false : ¬ timeoutSurfacedClaim := by
  intro h
  have hx := h requestVirtual worldPushTimeout rfl rfl (fun _ => rfl)
  exact absurd hx (by decide)

/-- C2 as amended: when the push path fails to produce diagnostics in time
(`waitForDiagnostics` rejects) the tool falls back to polling instead of
surfacing any error, and when no poll observes a diagnostic it returns a
success result reporting 0 errors and 0 warnings — a diagnostics timeout is
never surfaced distinctly by this tool. -/
theorem lspGetDiagnostics_push_timeout_returns_ok_empty (request : GetDiagnosticsRequest)
    (w : World) (fileContent : String)
    (hc : w.clientError = none)
    (hfc : resolveFileContent request w = .ok fileContent)
    (hw : w.client.hasWaitForDiagnostics = true)
    (hp : w.client.waitForDiagnostics = .error ())
    (hg : ∀ p, w.client.getDiagnostics p = .ok []) :
    (getDiagnosticsWithLSP request w).1 =
      .ok { message := successMessage 0 0 request.filePath, diagnostics := [] } := by
  rw [getDiagnosticsWithLSP_eq_core request w fileContent hc hfc]
  have hrp : runPush w.client = (true, []) := by simp [runPush, hw, hp]
  have hpoll : (corePollRes request w.client fileContent).result = .ok [] := by
    unfold corePollRes
    rw [hrp]
    simp only [List.length_nil, Nat.zero_mod, Bool.true_or, if_pos]
    exact pollLoopAux_all_empty w.client.getDiagnostics hg
      (waitParams fileContent).minPollsForNoError (hasVirtualContent request) fileContent
      (waitParams fileContent).maxPolls 0
  simp [getDiagnosticsCore, hpoll]

/-- Witness for C2 (amended): the concrete push-timeout, all-polls-empty
run. -/
theorem lspGetDiagnostics_push_timeout_returns_ok_empty_witness :
    worldPushTimeout.clientError = none ∧
    resolveFileContent requestVirtual worldPushTimeout = .ok "const x: string = 123;" ∧
    worldPushTimeout.client.hasWaitForDiagnostics = true ∧
    worldPushTimeout.client.waitForDiagnostics = .error () ∧
    (∀ p, worldPushTimeout.client.getDiagnostics p = .ok []) ∧
    (getDiagnosticsWithLSP requestVirtual worldPushTimeout).1 =
      .ok { message := successMessage 0 0 "test.ts", diagnostics := [] } :=
  ⟨rfl, rfl, rfl, rfl, fun _ => rfl,
   lspGetDiagnostics_push_timeout_returns_ok_empty requestVirtual worldPushTimeout
     "const x: string = 123;" rfl rfl rfl rfl (fun _ => rfl)⟩
